import Mathlib

/-!
Verification development for the deployments HTTP client of the
`reporting` repository (`client/deployments/client.go`).

The client is embedded shallowly:
* pure string manipulation (`strings.Replace`, URL joining, query
  building) is translated to Lean functions on `String` / `List Char`;
* the external collaborators (`net/http` request parsing and transport,
  `encoding/json` decoding, `context.WithTimeout`) are modelled by an
  environment record of oracles and by data describing their outcome
  (a decoded body is either malformed JSON or a list of records);
* each operation returns, besides the Go `(value, error)` pair, the
  ordered list of observable events of the call: requests handed to the
  transport, the `defer rsp.Body.Close()` execution, and log records.
-/

namespace Deployments

/-- Modelled from the spec: `DeviceDeployment` is an opaque record defined by
the upstream service's response schema; the client never inspects or mutates
it, it only decodes it.  Its definition is not part of the analysed source
(`client.go` only references it), so it is modelled as an opaque wrapper. -/
structure DeviceDeployment where
  raw : String
deriving DecidableEq

/-- Go `[]*DeviceDeployment`: a list of possibly-nil pointers. -/
abbrev DeviceDeployments := List (Option DeviceDeployment)

/-- Outcome of `encoding/json` decoding of a response body into
`[]*DeviceDeployment`: either a decode error or the decoded list. -/
inductive Body where
  | malformed (msg : String)
  | decoded (records : DeviceDeployments)
deriving DecidableEq

/-- The part of Go's `http.Response` read by the client: `StatusCode`,
`Status` (the status line text) and the body (represented by its decoding
outcome). -/
structure HttpResponse where
  statusCode : Nat
  status : String
  body : Body
deriving DecidableEq

/-- The part of Go's `http.Request` produced by the client: method, the URL
split into its pre-`?` part and parsed query parameters (an ordered multimap,
as produced by `url.Values` with `Add`), and the absolute deadline of the
request's context (seconds). -/
structure Request where
  method : String
  urlPath : String
  query : List (String × String)
  deadline : Nat
deriving DecidableEq

/-- Outcome of `http.Client.Do`: transport error or a response. -/
inductive DoOutcome where
  | err (msg : String)
  | ok (rsp : HttpResponse)
deriving DecidableEq

/-- Oracles for the external collaborators:
`newRequestErr u` is `some msg` iff `http.NewRequestWithContext(GET, u, nil)`
fails (i.e. `url.Parse` rejects `u`) with error message `msg`;
`doReq` is the behaviour of `http.Client.Do` (transport plus upstream). -/
structure Env where
  newRequestErr : String → Option String
  doReq : Request → DoOutcome

/-- Go `client` struct; the `http.Client` field is modelled by `Env`. -/
structure Client where
  urlBase : String

def urlDeviceDeployments : String :=
  "/api/internal/v1/deployments/tenants/:tid/deployments/devices"

def urlDeviceDeploymentsID : String := urlDeviceDeployments ++ "/:id"

/-- `defaultTimeout = 10 * time.Second`, in seconds. -/
def defaultTimeout : Nat := 10

def maxPerPage : Nat := 100

/-- Go `strings.Replace(s, old, new, 1)` on character lists: replace the
first (leftmost) occurrence of `old`; for empty `old` the replacement is
inserted in front. -/
def replaceFirstL (s old new : List Char) : List Char :=
  match s with
  | [] => if old = [] then new else []
  | c :: rest =>
    if old.isPrefixOf (c :: rest) then new ++ (c :: rest).drop old.length
    else c :: replaceFirstL rest old new

/-- Go `strings.Replace(s, old, new, 1)`. -/
def replaceFirst (s old new : String) : String :=
  ⟨replaceFirstL s.data old.data new.data⟩

/-- Modelled from the spec: `utils.JoinURL` (the URL-joining utility, an
excluded external collaborator whose source is not part of the analysed
files) joins the base URL and a path beginning with `/`; modelled as plain
concatenation. -/
def JoinURL (base path : String) : String := base ++ path

/-- Split a character list at the first occurrence of `c`; the second
component is `none` when `c` does not occur. -/
def splitOnFirst (c : Char) : List Char → List Char × Option (List Char)
  | [] => ([], none)
  | x :: xs =>
    if x = c then ([], some xs)
    else
      let r := splitOnFirst c xs
      (x :: r.1, r.2)

/-- `url.Parse`: split a URL string into the part before the first `?` and
the raw query after it (empty when there is no `?`).  Fragments and
percent-escapes are not modelled (none of the analysed behaviour touches
them). -/
def splitQuery (url : String) : String × String :=
  let r := splitOnFirst '?' url.data
  (⟨r.1⟩, ⟨(r.2).getD []⟩)

/-- Split a character list at every occurrence of `c`. -/
def splitAllAux (c : Char) : List Char → List Char → List (List Char)
  | [], acc => [acc.reverse]
  | x :: xs, acc =>
    if x = c then acc.reverse :: splitAllAux c xs []
    else splitAllAux c xs (x :: acc)

/-- `url.ParseQuery` (as used by `req.URL.Query()`): split the raw query on
`&`, each segment at its first `=`; empty segments are skipped.
Percent-decoding is not modelled. -/
def parseQueryString (s : String) : List (String × String) :=
  if s.data = [] then []
  else
    (splitAllAux '&' s.data []).filterMap fun seg =>
      if seg = [] then none
      else
        let r := splitOnFirst '=' seg
        some (⟨r.1⟩, ⟨(r.2).getD []⟩)

/-- Strict lexicographic order on character lists (by code point), used to
model the key sorting of `url.Values.Encode`. -/
def charsLt : List Char → List Char → Bool
  | [], [] => false
  | [], _ :: _ => true
  | _ :: _, [] => false
  | a :: as, b :: bs =>
    if a.toNat < b.toNat then true
    else if b.toNat < a.toNat then false
    else charsLt as bs

/-- Stable insertion (by key) used by `sortByKey`. -/
def insertByKey (p : String × String) :
    List (String × String) → List (String × String)
  | [] => [p]
  | q :: r =>
    if charsLt p.1.data q.1.data then p :: q :: r
    else q :: insertByKey p r

/-- Stable sort of query parameters by key: `url.Values.Encode` emits keys
in sorted order, values of one key in insertion order. -/
def sortByKey (l : List (String × String)) : List (String × String) :=
  l.foldl (fun acc p => insertByKey p acc) []

/-- `url.Values.Encode` (percent-escaping not modelled). -/
def encodeQuery (q : List (String × String)) : String :=
  String.intercalate "&" ((sortByKey q).map fun p => p.1 ++ "=" ++ p.2)

/-- `req.URL.String()` after `req.URL.RawQuery = q.Encode()`. -/
def Request.fullUrl (r : Request) : String :=
  if r.query = [] then r.urlPath
  else r.urlPath ++ "?" ++ encodeQuery r.query

/-- Observable events of one call, in order of occurrence. -/
inductive Event where
  | sent (req : Request)
  | closedBody
  | logged (msg : String)
deriving DecidableEq

/-- The error value returned by a call, tagged by its origin and carrying
the full message built by the Go code (`errors.Wrapf` renders
`"<msg>: <cause>"`). -/
inductive Err where
  | requestBuild (msg : String)
  | validation (msg : String)
  | transport (msg : String)
  | upstreamStatus (msg : String)
  | decodeFailure (msg : String)
deriving DecidableEq

inductive ErrKind where
  | requestBuild
  | validation
  | transport
  | upstreamStatus
  | decodeFailure
deriving DecidableEq

def Err.kind : Err → ErrKind
  | .requestBuild _ => .requestBuild
  | .validation _ => .validation
  | .transport _ => .transport
  | .upstreamStatus _ => .upstreamStatus
  | .decodeFailure _ => .decodeFailure

/-- The Go `(value, error)` pair of a call together with its event trace.
`value` is the returned slice / pointer (`none` models Go `nil`). -/
structure CallResult (α : Type) where
  events : List Event
  value : α
  error : Option Err
deriving DecidableEq

/-- `context.WithTimeout`, modelled per its documented contract: the derived
context's deadline is `now + d`, capped by the parent deadline when the
parent has one. -/
def withTimeout (parentDeadline : Option Nat) (now d : Nat) : Nat :=
  match parentDeadline with
  | none => now + d
  | some dl => min dl (now + d)

/-- The URL string built by `GetDeployments`:
`JoinURL` then `strings.Replace(url, ":tid", tenantID, 1)`. -/
def deploymentsURL (urlBase tenantID : String) : String :=
  replaceFirst (JoinURL urlBase urlDeviceDeployments) ":tid" tenantID

/-- The URL string built by `GetLatestFinishedDeployment`: `JoinURL`, then
`:tid` replaced by the tenant ID, then `:id` replaced by the device ID
(first occurrences, in that order). -/
def latestDeploymentURL (urlBase tenantID deviceID : String) : String :=
  replaceFirst
    (replaceFirst (JoinURL urlBase urlDeviceDeploymentsID) ":tid" tenantID)
    ":id" deviceID

/-- `http.NewRequestWithContext(ctx, GET, url, nil)` in the success case:
the URL is split into path and parsed query, the context deadline is
attached. -/
def newRequest (url : String) (deadline : Nat) : Request :=
  { method := "GET"
    urlPath := (splitQuery url).1
    query := parseQueryString (splitQuery url).2
    deadline := deadline }

/-- The query of `GetDeployments` after the `q.Add` calls: the request's
initial query, then `page=1`, `per_page=<len IDs>`, and one `id` parameter
per element of `IDs` in order. -/
def deploymentsQuery (initQ : List (String × String)) (IDs : List String) :
    List (String × String) :=
  initQ ++ [("page", "1"), ("per_page", toString IDs.length)]
    ++ IDs.map (fun id => ("id", id))

/-- The request sent by `GetDeployments`. -/
def deploymentsReq (urlBase tenantID : String) (IDs : List String)
    (deadline : Nat) : Request :=
  let r := newRequest (deploymentsURL urlBase tenantID) deadline
  { r with query := deploymentsQuery r.query IDs }

/-- The request sent by `GetLatestFinishedDeployment`. -/
def latestReq (urlBase tenantID deviceID : String) (deadline : Nat) :
    Request :=
  let r := newRequest (latestDeploymentURL urlBase tenantID deviceID) deadline
  { r with query := r.query ++ [("page", "1"), ("per_page", "1")] }

/-- The message of the non-200/non-404 error:
`errors.Errorf("%s %s request failed with status %v", req.Method, req.URL,
rsp.Status)`. -/
def upstreamMsg (req : Request) (rsp : HttpResponse) : String :=
  req.method ++ " " ++ Request.fullUrl req ++ " request failed with status "
    ++ rsp.status

/-- `client.GetDeployments`, translated statement by statement from
`client.go`; `ctxDeadline`/`now` model the caller's context deadline and the
wall clock at the call (seconds). -/
def GetDeployments (c : Client) (env : Env) (ctxDeadline : Option Nat)
    (now : Nat) (tenantID : String) (IDs : List String) :
    CallResult (Option DeviceDeployments) :=
  let url := deploymentsURL c.urlBase tenantID
  let deadline := withTimeout ctxDeadline now defaultTimeout
  match env.newRequestErr url with
  | some m =>
    ⟨[], none, some (.requestBuild ("failed to create request: " ++ m))⟩
  | none =>
    if IDs.length > maxPerPage then
      ⟨[], none, some (.validation "too many IDs")⟩
    else
      let req := deploymentsReq c.urlBase tenantID IDs deadline
      match env.doReq req with
      | .err m =>
        ⟨[.sent req], none,
          some (.transport ("failed to submit " ++ req.method ++ " "
            ++ Request.fullUrl req ++ ": " ++ m))⟩
      | .ok rsp =>
        if rsp.statusCode = 404 then
          ⟨[.sent req, .closedBody], none, none⟩
        else if rsp.statusCode ≠ 200 then
          ⟨[.sent req, .logged (upstreamMsg req rsp), .closedBody], none,
            some (.upstreamStatus (upstreamMsg req rsp))⟩
        else
          match rsp.body with
          | .malformed m =>
            ⟨[.sent req, .closedBody], none,
              some (.decodeFailure ("failed to parse request body: " ++ m))⟩
          | .decoded xs =>
            if xs.length = 0 then ⟨[.sent req, .closedBody], none, none⟩
            else ⟨[.sent req, .closedBody], some xs, none⟩

/-- `client.GetLatestFinishedDeployment`, translated statement by statement
from `client.go`. -/
def GetLatestFinishedDeployment (c : Client) (env : Env)
    (ctxDeadline : Option Nat) (now : Nat) (tenantID deviceID : String) :
    CallResult (Option DeviceDeployment) :=
  let url := latestDeploymentURL c.urlBase tenantID deviceID
  let deadline := withTimeout ctxDeadline now defaultTimeout
  match env.newRequestErr url with
  | some m =>
    ⟨[], none, some (.requestBuild ("failed to create request: " ++ m))⟩
  | none =>
    let req := latestReq c.urlBase tenantID deviceID deadline
    match env.doReq req with
    | .err m =>
      ⟨[.sent req], none,
        some (.transport ("failed to submit " ++ req.method ++ " "
          ++ Request.fullUrl req ++ ": " ++ m))⟩
    | .ok rsp =>
      if rsp.statusCode = 404 then
        ⟨[.sent req, .closedBody], none, none⟩
      else if rsp.statusCode ≠ 200 then
        ⟨[.sent req, .logged (upstreamMsg req rsp), .closedBody], none,
          some (.upstreamStatus (upstreamMsg req rsp))⟩
      else
        match rsp.body with
        | .malformed m =>
          ⟨[.sent req, .closedBody], none,
            some (.decodeFailure ("failed to parse request body: " ++ m))⟩
        | .decoded xs =>
          match xs with
          | [] => ⟨[.sent req, .closedBody], none, none⟩
          | x :: _ => ⟨[.sent req, .closedBody], x, none⟩

/-- The requests handed to the transport during a call, in order. -/
def sentRequests (evs : List Event) : List Request :=
  evs.filterMap fun e =>
    match e with
    | .sent r => some r
    | _ => none

/-! ### Lemmas about first-occurrence string replacement -/

theorem append_pre_mono {α} {t T : List α} (a : List α) (h : t <+: T) :
    a ++ t <+: a ++ T := by
  obtain ⟨r, hr⟩ := h
  exact ⟨r, by rw [List.append_assoc, hr]⟩

/-- An occurrence of `old` inside `X ++ Y` lies inside `X`, inside `Y`, or
straddles the boundary (a nonempty proper front of `old` ends `X` and the
rest starts `Y`). -/
theorem infix_append_cases {α} {old X Y : List α} (h : old <:+: X ++ Y) :
    old <:+: X ∨ old <:+: Y ∨
      ∃ k, 0 < k ∧ k < old.length ∧
        List.take k old <:+ X ∧ List.drop k old <+: Y := by
  induction X with
  | nil => exact Or.inr (Or.inl (by simpa using h))
  | cons c X' ih =>
    rw [List.cons_append, List.infix_cons_iff] at h
    rcases h with hp | hi
    · rw [← List.cons_append, List.prefix_iff_eq_take] at hp
      by_cases hlen : old.length ≤ (c :: X').length
      · left
        rw [List.take_append_eq_append_take, Nat.sub_eq_zero_of_le hlen,
          List.take_zero, List.append_nil] at hp
        rw [hp]
        exact List.IsPrefix.isInfix (List.take_prefix _ _)
      · refine Or.inr (Or.inr ⟨(c :: X').length, by simp, by omega, ?_, ?_⟩)
        · have h1 : List.take (c :: X').length old = c :: X' := by
            rw [hp, List.take_take]
            rw [Nat.min_eq_left (by omega), List.take_left]
          rw [h1]
        · have h2 : List.drop (c :: X').length old
              = List.take (old.length - (c :: X').length) Y := by
            conv_lhs => rw [hp]
            rw [List.drop_take, List.drop_left]
          rw [h2]
          exact List.take_prefix _ _
    · rcases ih hi with h1 | h2 | ⟨k, hk0, hk1, hs, hpr⟩
      · exact Or.inl
          (List.IsInfix.trans h1 (List.IsSuffix.isInfix (List.suffix_cons c X')))
      · exact Or.inr (Or.inl h2)
      · exact Or.inr (Or.inr
          ⟨k, hk0, hk1, List.IsSuffix.trans hs (List.suffix_cons c X'), hpr⟩)

theorem not_infix_append_of {old X Y : List Char}
    (hX : ¬ old <:+: X) (hY : ¬ old <:+: Y)
    (hstr : ∀ k, 0 < k → k < old.length →
        List.take k old <:+ X → List.drop k old <+: Y → False) :
    ¬ old <:+: X ++ Y := by
  intro hc
  rcases infix_append_cases hc with h1 | h2 | ⟨k, hk0, hk1, hs, hp⟩
  · exact hX h1
  · exact hY h2
  · exact hstr k hk0 hk1 hs hp

/-- A suffix of `X ++ Y` no longer than `Y` is a suffix of `Y`. -/
theorem suffix_of_append_right {α} {l X Y : List α} (h : l <:+ X ++ Y)
    (hlen : l.length ≤ Y.length) : l <:+ Y := by
  obtain ⟨s, hs⟩ := h
  have hX : X.length ≤ s.length := by
    have hl := congrArg List.length hs
    simp only [List.length_append] at hl
    omega
  have h1 : Y = List.drop X.length (s ++ l) := by rw [hs, List.drop_left]
  have key : List.drop (s.length - X.length) Y = l := by
    rw [h1, List.drop_drop]
    have h2 : X.length + (s.length - X.length) = s.length := by omega
    rw [h2, List.drop_left]
  rw [← key]
  exact List.drop_suffix _ _

/-- When no occurrence of `old` starts within `a` (including occurrences
reaching into `b`), the first replacement in `a ++ b` happens in `b`. -/
theorem replaceFirstL_append (a b old new : List Char)
    (h : ¬ old <:+: a ++ List.take (old.length - 1) b) :
    replaceFirstL (a ++ b) old new = a ++ replaceFirstL b old new := by
  induction a with
  | nil => simp
  | cons c a' ih =>
    rw [List.cons_append]
    simp only [replaceFirstL]
    have hnp : ¬ old.isPrefixOf (c :: (a' ++ b)) = true := by
      rw [List.isPrefixOf_iff_prefix]
      intro hp
      apply h
      apply List.IsPrefix.isInfix
      rw [← List.cons_append, List.prefix_iff_eq_take] at hp
      rw [List.take_append_eq_append_take] at hp
      by_cases hlen : old.length ≤ (c :: a').length
      · rw [Nat.sub_eq_zero_of_le hlen, List.take_zero, List.append_nil] at hp
        rw [hp]
        exact List.IsPrefix.trans (List.take_prefix _ _) (List.prefix_append _ _)
      · rw [List.take_of_length_le (by omega)] at hp
        have hL : (c :: a').length = a'.length + 1 := by simp
        have h2 : List.take (old.length - (c :: a').length) b
            <+: List.take (old.length - 1) b := by
          have h3 : List.take (old.length - (c :: a').length) b
              = List.take (old.length - (c :: a').length)
                  (List.take (old.length - 1) b) := by
            rw [List.take_take, Nat.min_eq_left (by omega)]
          rw [h3]
          exact List.take_prefix _ _
        calc old = (c :: a')
              ++ List.take (old.length - (c :: a').length) b := hp
          _ <+: (c :: a') ++ List.take (old.length - 1) b := append_pre_mono _ h2
    rw [if_neg hnp]
    rw [ih (fun hc => h (List.IsInfix.trans hc
      (List.IsSuffix.isInfix (List.suffix_cons c (a' ++ List.take (old.length - 1) b)))))]
    simp

/-- Replacing at an occurrence sitting at the front. -/
theorem replaceFirstL_here (b old new : List Char) (h : old ≠ []) :
    replaceFirstL (old ++ b) old new = new ++ b := by
  match old, h with
  | o :: old', _ =>
    rw [List.cons_append]
    simp only [replaceFirstL]
    have hp : (o :: old').isPrefixOf (o :: (old' ++ b)) = true := by
      rw [List.isPrefixOf_iff_prefix, ← List.cons_append]
      exact List.prefix_append _ _
    rw [if_pos hp]
    rw [← List.cons_append, List.drop_left]

/-! ### Where the first `:tid` / `:id` occurrences of the built URLs lie -/

/-- The path template up to the `:tid` parameter. -/
def pathTenants : String := "/api/internal/v1/deployments/tenants/"

/-- The path template after the `:tid` parameter (collection endpoint). -/
def pathDevices : String := "/deployments/devices"

/-- The path template between `:tid` and `:id` (single-device endpoint). -/
def pathDevicesSlash : String := "/deployments/devices/"

theorem no_tid_occurrence (base : String)
    (hb : ¬ (":tid".data <:+: base.data)) (tail : List Char) :
    ¬ (":tid".data <:+: (base.data ++ pathTenants.data)
        ++ List.take (":tid".data.length - 1) (":tid".data ++ tail)) := by
  have h1 : ¬ (":tid".data <:+: base.data ++ pathTenants.data) := by
    apply not_infix_append_of hb (by decide)
    intro k hk0 hk1 _ hp
    have hk4 : k < 4 := hk1
    interval_cases k
    · exact absurd hp (by decide)
    · exact absurd hp (by decide)
    · exact absurd hp (by decide)
  have htake : List.take (":tid".data.length - 1) (":tid".data ++ tail)
      = [':', 't', 'i'] := rfl
  rw [htake]
  apply not_infix_append_of h1 (by decide)
  intro k hk0 hk1 _ hp
  have hk4 : k < 4 := hk1
  interval_cases k
  · exact absurd hp (by decide)
  · exact absurd hp (by decide)
  · exact absurd hp (by decide)

theorem no_id_occurrence (base tenant : String)
    (hb : ¬ (":id".data <:+: base.data))
    (ht : ¬ (":id".data <:+: tenant.data)) :
    ¬ (":id".data <:+: ((base.data ++ pathTenants.data)
        ++ (tenant.data ++ pathDevicesSlash.data))
        ++ List.take (":id".data.length - 1) (":id".data ++ [])) := by
  have n2 : ¬ (":id".data <:+: base.data ++ pathTenants.data) := by
    apply not_infix_append_of hb (by decide)
    intro k hk0 hk1 _ hp
    have hk3 : k < 3 := hk1
    interval_cases k
    · exact absurd hp (by decide)
    · exact absurd hp (by decide)
  have n4 : ¬ (":id".data <:+: tenant.data ++ pathDevicesSlash.data) := by
    apply not_infix_append_of ht (by decide)
    intro k hk0 hk1 _ hp
    have hk3 : k < 3 := hk1
    interval_cases k
    · exact absurd hp (by decide)
    · exact absurd hp (by decide)
  have n5 : ¬ (":id".data <:+: (base.data ++ pathTenants.data)
      ++ (tenant.data ++ pathDevicesSlash.data)) := by
    apply not_infix_append_of n2 n4
    intro k hk0 hk1 hs _
    have hk3 : k < 3 := hk1
    interval_cases k
    · have h5 := suffix_of_append_right hs (by decide)
      exact absurd h5 (by decide)
    · have h5 := suffix_of_append_right hs (by decide)
      exact absurd h5 (by decide)
  have htake : List.take (":id".data.length - 1) (":id".data ++ [])
      = [':', 'i'] := rfl
  rw [htake]
  apply not_infix_append_of n5 (by decide)
  intro k hk0 hk1 _ hp
  have hk3 : k < 3 := hk1
  interval_cases k
  · exact absurd hp (by decide)
  · exact absurd hp (by decide)

/-- When the base URL does not contain `:tid`, the single `strings.Replace`
of `GetDeployments` substitutes the tenant ID exactly at the path template's
tenant segment. -/
theorem deploymentsURL_eq (base tenant : String)
    (hb : ¬ (":tid".data <:+: base.data)) :
    deploymentsURL base tenant
      = JoinURL base (pathTenants ++ tenant ++ pathDevices) := by
  apply String.ext
  show replaceFirstL (JoinURL base urlDeviceDeployments).data
      ":tid".data tenant.data
    = (JoinURL base (pathTenants ++ tenant ++ pathDevices)).data
  have hdata : (JoinURL base urlDeviceDeployments).data
      = (base.data ++ pathTenants.data)
        ++ (":tid".data ++ pathDevices.data) := by
    rw [JoinURL, String.data_append]
    have hu : urlDeviceDeployments.data
        = pathTenants.data ++ (":tid".data ++ pathDevices.data) := by decide
    rw [hu, List.append_assoc]
  rw [hdata, replaceFirstL_append _ _ _ _ (no_tid_occurrence base hb _),
    replaceFirstL_here _ _ _ (by decide)]
  simp [JoinURL, String.data_append, List.append_assoc]

/-- When the base URL contains neither `:tid` nor `:id` and the tenant ID
does not contain `:id`, the two `strings.Replace` of
`GetLatestFinishedDeployment` substitute the tenant ID and the device ID
exactly at the template's tenant and device segments. -/
theorem latestDeploymentURL_eq (base tenant device : String)
    (hb1 : ¬ (":tid".data <:+: base.data))
    (hb2 : ¬ (":id".data <:+: base.data))
    (ht : ¬ (":id".data <:+: tenant.data)) :
    latestDeploymentURL base tenant device
      = JoinURL base (pathTenants ++ tenant ++ pathDevicesSlash ++ device) := by
  apply String.ext
  show replaceFirstL
      (replaceFirst (JoinURL base urlDeviceDeploymentsID) ":tid" tenant).data
      ":id".data device.data
    = (JoinURL base (pathTenants ++ tenant ++ pathDevicesSlash ++ device)).data
  have hdata : (JoinURL base urlDeviceDeploymentsID).data
      = (base.data ++ pathTenants.data)
        ++ (":tid".data ++ (pathDevicesSlash.data ++ ":id".data)) := by
    rw [JoinURL, String.data_append]
    have hu : urlDeviceDeploymentsID.data
        = pathTenants.data
          ++ (":tid".data ++ (pathDevicesSlash.data ++ ":id".data)) := by decide
    rw [hu, List.append_assoc]
  have hstage1 : (replaceFirst (JoinURL base urlDeviceDeploymentsID)
        ":tid" tenant).data
      = ((base.data ++ pathTenants.data)
          ++ (tenant.data ++ pathDevicesSlash.data)) ++ (":id".data ++ []) := by
    show replaceFirstL (JoinURL base urlDeviceDeploymentsID).data
        ":tid".data tenant.data = _
    rw [hdata, replaceFirstL_append _ _ _ _ (no_tid_occurrence base hb1 _),
      replaceFirstL_here _ _ _ (by decide)]
    simp [List.append_assoc]
  rw [hstage1,
    replaceFirstL_append _ _ _ _ (no_id_occurrence base tenant hb2 ht),
    replaceFirstL_here _ _ _ (by decide)]
  simp [JoinURL, String.data_append, List.append_assoc]

/-! ### Helper lemmas about the two operations -/

/-- Any request handed to the transport by `GetDeployments` is the one
canonical request of the call. -/
theorem getDeployments_sent_eq {c : Client} {env : Env}
    {ctxDeadline : Option Nat} {now : Nat} {tenantID : String}
    {IDs : List String} {req : Request}
    (h : Event.sent req
      ∈ (GetDeployments c env ctxDeadline now tenantID IDs).events) :
    req = deploymentsReq c.urlBase tenantID IDs
      (withTimeout ctxDeadline now defaultTimeout) := by
  simp only [GetDeployments] at h
  repeat' split at h
  all_goals simp_all

/-- Any request handed to the transport by `GetLatestFinishedDeployment` is
the one canonical request of the call. -/
theorem getLatest_sent_eq {c : Client} {env : Env} {ctxDeadline : Option Nat}
    {now : Nat} {tenantID deviceID : String} {req : Request}
    (h : Event.sent req
      ∈ (GetLatestFinishedDeployment c env ctxDeadline now
          tenantID deviceID).events) :
    req = latestReq c.urlBase tenantID deviceID
      (withTimeout ctxDeadline now defaultTimeout) := by
  simp only [GetLatestFinishedDeployment] at h
  repeat' split at h
  all_goals simp_all

/-! ### Concrete environments and inputs used by witnesses and
counterexamples -/

def rsp404 : HttpResponse := ⟨404, "404 Not Found", .decoded []⟩

def rsp500 : HttpResponse := ⟨500, "500 Internal Server Error", .decoded []⟩

def rsp200 (recs : DeviceDeployments) : HttpResponse := ⟨200, "200 OK", .decoded recs⟩

def envOf (rsp : HttpResponse) : Env := ⟨fun _ => none, fun _ => .ok rsp⟩

/-- An environment whose base URL is rejected by `url.Parse`. -/
def envBadURL : Env :=
  ⟨fun _ => some "missing protocol scheme", fun _ => .err "unreachable"⟩

def sampleClient : Client := ⟨"http://mender-deployments:8080"⟩

/-! ### The claims -/

/-- C1: for both operations, an upstream HTTP 404 response and an upstream
HTTP 200 response whose body decodes to an empty array produce the same
outcome: a nil result together with a nil error — never an error. -/
theorem C1_notfound_and_empty_equivalent (c : Client) (env : Env)
    (ctxDeadline : Option Nat) (now : Nat) (tenantID deviceID : String)
    (IDs : List String) (rsp : HttpResponse)
    (hbuild : ∀ u, env.newRequestErr u = none)
    (hdo : ∀ r, env.doReq r = .ok rsp)
    (hrsp : rsp.statusCode = 404
      ∨ (rsp.statusCode = 200 ∧ rsp.body = .decoded []))
    (hlen : IDs.length ≤ maxPerPage) :
    ((GetDeployments c env ctxDeadline now tenantID IDs).value = none ∧
     (GetDeployments c env ctxDeadline now tenantID IDs).error = none) ∧
    ((GetLatestFinishedDeployment c env ctxDeadline now
        tenantID deviceID).value = none ∧
     (GetLatestFinishedDeployment c env ctxDeadline now
        tenantID deviceID).error = none) := by
  have hnl : ¬ (IDs.length > maxPerPage) := by omega
  rcases hrsp with h404 | ⟨h200, hbody⟩
  · simp [GetDeployments, GetLatestFinishedDeployment, hbuild, hdo, h404, hnl]
  · simp [GetDeployments, GetLatestFinishedDeployment, hbuild, hdo, h200,
      hbody, hnl]

theorem C1_witness :
    ((GetDeployments sampleClient (envOf rsp404) none 0 "t1" ["a"]).value
        = none ∧
     (GetDeployments sampleClient (envOf rsp404) none 0 "t1" ["a"]).error
        = none) ∧
    ((GetLatestFinishedDeployment sampleClient (envOf rsp404) none 0
        "t1" "d1").value = none ∧
     (GetLatestFinishedDeployment sampleClient (envOf rsp404) none 0
        "t1" "d1").error = none) :=
  C1_notfound_and_empty_equivalent sampleClient (envOf rsp404) none 0
    "t1" "d1" ["a"] rsp404 (fun _ => rfl) (fun _ => rfl) (Or.inl rfl)
    (by decide)

/-- C2 (amended): for every input list of more than 100 IDs, provided
request construction succeeds for the built URL, `GetDeployments` fails
immediately with the validation error and performs zero network requests.
The proviso is forced: request construction happens first, and when it
fails the returned error is the request-build error (see the
counterexample and C10). -/
theorem C2_too_many_ids_validation (c : Client) (env : Env)
    (ctxDeadline : Option Nat) (now : Nat) (tenantID : String)
    (IDs : List String)
    (hbuild : env.newRequestErr (deploymentsURL c.urlBase tenantID) = none)
    (hlen : IDs.length > maxPerPage) :
    (GetDeployments c env ctxDeadline now tenantID IDs).error
        = some (Err.validation "too many IDs") ∧
    (GetDeployments c env ctxDeadline now tenantID IDs).events = [] ∧
    (GetDeployments c env ctxDeadline now tenantID IDs).value = none := by
  simp [GetDeployments, hbuild, hlen]

/-- C2, as stated, is false on a client whose base URL is rejected by
`url.Parse`: with 101 IDs the call fails with the request-build error, not
with a validation error. -/
theorem C2_counterexample :
    ((GetDeployments ⟨"://bad"⟩ envBadURL none 0 "t1"
        (List.replicate 101 "a")).error).map Err.kind
      ≠ some ErrKind.validation := by decide

theorem C2_witness :
    (GetDeployments sampleClient (envOf rsp404) none 0 "t1"
        (List.replicate 101 "a")).error
        = some (Err.validation "too many IDs") ∧
    (GetDeployments sampleClient (envOf rsp404) none 0 "t1"
        (List.replicate 101 "a")).events = [] ∧
    (GetDeployments sampleClient (envOf rsp404) none 0 "t1"
        (List.replicate 101 "a")).value = none :=
  C2_too_many_ids_validation sampleClient (envOf rsp404) none 0 "t1"
    (List.replicate 101 "a") rfl (by decide)

/-- C3 (amended): for every list of at most 100 IDs, provided request
construction succeeds for the built URL, `GetDeployments` hands exactly one
request to the transport; it is a GET request whose query contains `page=1`
and `per_page=<len IDs>` and ends with one `id` parameter per element of
the list, in the given order, duplicates preserved.  The proviso is forced:
when request construction fails, zero requests are issued (see the
counterexample). -/
theorem C3_single_request_query (c : Client) (env : Env)
    (ctxDeadline : Option Nat) (now : Nat) (tenantID : String)
    (IDs : List String)
    (hbuild : env.newRequestErr (deploymentsURL c.urlBase tenantID) = none)
    (hlen : IDs.length ≤ maxPerPage) :
    sentRequests (GetDeployments c env ctxDeadline now tenantID IDs).events
      = [deploymentsReq c.urlBase tenantID IDs
          (withTimeout ctxDeadline now defaultTimeout)] ∧
    (deploymentsReq c.urlBase tenantID IDs
        (withTimeout ctxDeadline now defaultTimeout)).method = "GET" ∧
    ("page", "1") ∈ (deploymentsReq c.urlBase tenantID IDs
        (withTimeout ctxDeadline now defaultTimeout)).query ∧
    ("per_page", toString IDs.length) ∈ (deploymentsReq c.urlBase tenantID
        IDs (withTimeout ctxDeadline now defaultTimeout)).query ∧
    IDs.map (fun id => ("id", id))
      <:+ ((deploymentsReq c.urlBase tenantID IDs
          (withTimeout ctxDeadline now defaultTimeout)).query.filter
            (fun p => p.1 == "id")) := by
  have hnl : ¬ (IDs.length > maxPerPage) := by omega
  refine ⟨?_, ?_, ?_, ?_, ?_⟩
  · simp only [GetDeployments, hbuild, hnl, if_false]
    rcases hdo : env.doReq (deploymentsReq c.urlBase tenantID IDs
        (withTimeout ctxDeadline now defaultTimeout)) with m | rsp
    · simp [sentRequests]
    · repeat' split
      all_goals simp [sentRequests]
  · simp [deploymentsReq, newRequest]
  · simp [deploymentsReq, newRequest, deploymentsQuery]
  · simp [deploymentsReq, newRequest, deploymentsQuery]
  · simp only [deploymentsReq, newRequest, deploymentsQuery]
    simp only [List.filter_append]
    have h1 : List.filter (fun p => p.1 == "id")
        (IDs.map (fun id => ("id", id))) = IDs.map (fun id => ("id", id)) := by
      rw [List.filter_map]
      have hcomp : ((fun p => p.1 == "id")
          ∘ fun id => (("id", id) : String × String)) = fun _ => true := by
        funext id
        simp
      rw [hcomp, List.filter_true]
    have h2 : List.filter (fun p => p.1 == "id")
        [("page", "1"), ("per_page", toString IDs.length)] = [] := by
      simp [List.filter]
    rw [h1, h2]
    simp

/-- C3, as stated, is false on a client whose base URL is rejected by
`url.Parse`: with one ID the call issues zero requests (it fails with the
request-build error). -/
theorem C3_counterexample :
    sentRequests (GetDeployments ⟨"://bad"⟩ envBadURL none 0 "t1"
        ["a"]).events = [] ∧
    ((GetDeployments ⟨"://bad"⟩ envBadURL none 0 "t1" ["a"]).error).map
        Err.kind = some ErrKind.requestBuild := by decide

theorem C3_witness :
    sentRequests (GetDeployments sampleClient (envOf rsp404) none 0 "t1"
        ["a", "b", "a"]).events
      = [deploymentsReq sampleClient.urlBase "t1" ["a", "b", "a"]
          (withTimeout none 0 defaultTimeout)] ∧
    (deploymentsReq sampleClient.urlBase "t1" ["a", "b", "a"]
        (withTimeout none 0 defaultTimeout)).method = "GET" ∧
    ("page", "1") ∈ (deploymentsReq sampleClient.urlBase "t1" ["a", "b", "a"]
        (withTimeout none 0 defaultTimeout)).query ∧
    ("per_page", toString (["a", "b", "a"] : List String).length)
      ∈ (deploymentsReq sampleClient.urlBase "t1" ["a", "b", "a"]
          (withTimeout none 0 defaultTimeout)).query ∧
    (["a", "b", "a"] : List String).map (fun id => ("id", id))
      <:+ ((deploymentsReq sampleClient.urlBase "t1" ["a", "b", "a"]
          (withTimeout none 0 defaultTimeout)).query.filter
            (fun p => p.1 == "id")) :=
  C3_single_request_query sampleClient (envOf rsp404) none 0 "t1"
    ["a", "b", "a"] rfl (by decide)

/-- C4: on an upstream HTTP 200 response decoding to a non-empty array,
`GetDeployments` returns the full decoded sequence unmodified and
`GetLatestFinishedDeployment` returns exactly its first element. -/
theorem C4_nonempty_passthrough (c : Client) (env : Env)
    (ctxDeadline : Option Nat) (now : Nat) (tenantID deviceID : String)
    (IDs : List String) (rsp : HttpResponse) (x : Option DeviceDeployment)
    (xs : DeviceDeployments)
    (hbuild : ∀ u, env.newRequestErr u = none)
    (hdo : ∀ r, env.doReq r = .ok rsp)
    (h200 : rsp.statusCode = 200) (hbody : rsp.body = .decoded (x :: xs))
    (hlen : IDs.length ≤ maxPerPage) :
    ((GetDeployments c env ctxDeadline now tenantID IDs).value
        = some (x :: xs) ∧
     (GetDeployments c env ctxDeadline now tenantID IDs).error = none) ∧
    ((GetLatestFinishedDeployment c env ctxDeadline now
        tenantID deviceID).value = x ∧
     (GetLatestFinishedDeployment c env ctxDeadline now
        tenantID deviceID).error = none) := by
  have hnl : ¬ (IDs.length > maxPerPage) := by omega
  simp [GetDeployments, GetLatestFinishedDeployment, hbuild, hdo, h200,
    hbody, hnl]

theorem C4_witness :
    ((GetDeployments sampleClient (envOf (rsp200 [some ⟨"r1"⟩, none])) none 0
        "t1" ["a"]).value = some [some ⟨"r1"⟩, none] ∧
     (GetDeployments sampleClient (envOf (rsp200 [some ⟨"r1"⟩, none])) none 0
        "t1" ["a"]).error = none) ∧
    ((GetLatestFinishedDeployment sampleClient
        (envOf (rsp200 [some ⟨"r1"⟩, none])) none 0 "t1" "d1").value
        = some ⟨"r1"⟩ ∧
     (GetLatestFinishedDeployment sampleClient
        (envOf (rsp200 [some ⟨"r1"⟩, none])) none 0 "t1" "d1").error
        = none) :=
  C4_nonempty_passthrough sampleClient (envOf (rsp200 [some ⟨"r1"⟩, none]))
    none 0 "t1" "d1" ["a"] (rsp200 [some ⟨"r1"⟩, none]) (some ⟨"r1"⟩) [none]
    (fun _ => rfl) (fun _ => rfl) rfl rfl (by decide)

/-- C5: on an upstream response whose status is neither 200 nor 404, both
operations return a nil result and the upstream-status error; its message
(`upstreamMsg`) contains the HTTP method, the request URL and the response
status, and the message is logged during the call, before it returns. -/
theorem C5_upstream_status_error (c : Client) (env : Env)
    (ctxDeadline : Option Nat) (now : Nat) (tenantID deviceID : String)
    (IDs : List String) (rsp : HttpResponse)
    (hbuild : ∀ u, env.newRequestErr u = none)
    (hdo : ∀ r, env.doReq r = .ok rsp)
    (h404 : rsp.statusCode ≠ 404) (h200 : rsp.statusCode ≠ 200)
    (hlen : IDs.length ≤ maxPerPage) :
    ((GetDeployments c env ctxDeadline now tenantID IDs).value = none ∧
     (GetDeployments c env ctxDeadline now tenantID IDs).error
       = some (.upstreamStatus (upstreamMsg (deploymentsReq c.urlBase
           tenantID IDs (withTimeout ctxDeadline now defaultTimeout)) rsp)) ∧
     Event.logged (upstreamMsg (deploymentsReq c.urlBase tenantID IDs
           (withTimeout ctxDeadline now defaultTimeout)) rsp)
       ∈ (GetDeployments c env ctxDeadline now tenantID IDs).events) ∧
    ((GetLatestFinishedDeployment c env ctxDeadline now
        tenantID deviceID).value = none ∧
     (GetLatestFinishedDeployment c env ctxDeadline now
        tenantID deviceID).error
       = some (.upstreamStatus (upstreamMsg (latestReq c.urlBase tenantID
           deviceID (withTimeout ctxDeadline now defaultTimeout)) rsp)) ∧
     Event.logged (upstreamMsg (latestReq c.urlBase tenantID deviceID
           (withTimeout ctxDeadline now defaultTimeout)) rsp)
       ∈ (GetLatestFinishedDeployment c env ctxDeadline now
           tenantID deviceID).events) ∧
    (∀ req rsp2,
      req.method.data <:+: (upstreamMsg req rsp2).data ∧
      (Request.fullUrl req).data <:+: (upstreamMsg req rsp2).data ∧
      rsp2.status.data <:+: (upstreamMsg req rsp2).data) := by
  have hnl : ¬ (IDs.length > maxPerPage) := by omega
  refine ⟨?_, ?_, ?_⟩
  · simp [GetDeployments, hbuild, hdo, h404, h200, hnl]
  · simp [GetLatestFinishedDeployment, hbuild, hdo, h404, h200]
  · intro req rsp2
    refine ⟨⟨[], (" " ++ Request.fullUrl req ++ " request failed with status "
        ++ rsp2.status).data, ?_⟩,
      ⟨(req.method ++ " ").data,
        (" request failed with status " ++ rsp2.status).data, ?_⟩,
      ⟨(req.method ++ " " ++ Request.fullUrl req
          ++ " request failed with status ").data, [], ?_⟩⟩ <;>
      simp [upstreamMsg, String.data_append]

theorem C5_witness :
    ((GetDeployments sampleClient (envOf rsp500) none 0 "t1" ["a"]).value
        = none ∧
     (GetDeployments sampleClient (envOf rsp500) none 0 "t1" ["a"]).error
       = some (.upstreamStatus (upstreamMsg (deploymentsReq
           sampleClient.urlBase "t1" ["a"]
           (withTimeout none 0 defaultTimeout)) rsp500)) ∧
     Event.logged (upstreamMsg (deploymentsReq sampleClient.urlBase "t1"
           ["a"] (withTimeout none 0 defaultTimeout)) rsp500)
       ∈ (GetDeployments sampleClient (envOf rsp500) none 0 "t1"
           ["a"]).events) :=
  (C5_upstream_status_error sampleClient (envOf rsp500) none 0 "t1" "d1"
    ["a"] rsp500 (fun _ => rfl) (fun _ => rfl) (by decide) (by decide)
    (by decide)).1

/-- C6 (amended): provided the base URL contains neither `:tid` nor `:id`
and the tenant ID does not contain `:id`, `GetDeployments` targets the URL
obtained by joining the base URL with the tenant-scoped collection path
(tenant ID substituted), and `GetLatestFinishedDeployment` targets the base
URL joined with
`/api/internal/v1/deployments/tenants/{tenantID}/deployments/devices/{deviceID}`.
The provisos are forced: the code does positional first-occurrence string
replacement on the whole joined URL, so a `:tid`/`:id` occurrence in the
base URL or a `:id` occurrence in the tenant ID captures the substitution
(see the counterexample). -/
theorem C6_url_template (base tenant device : String)
    (hb1 : ¬ (":tid".data <:+: base.data))
    (hb2 : ¬ (":id".data <:+: base.data))
    (ht : ¬ (":id".data <:+: tenant.data)) :
    deploymentsURL base tenant
      = JoinURL base (pathTenants ++ tenant ++ pathDevices) ∧
    latestDeploymentURL base tenant device
      = JoinURL base (pathTenants ++ tenant ++ pathDevicesSlash ++ device) :=
  ⟨deploymentsURL_eq base tenant hb1,
   latestDeploymentURL_eq base tenant device hb1 hb2 ht⟩

/-- C6, as stated, is false: a tenant ID containing `:id` captures the
device substitution of `GetLatestFinishedDeployment`; a base URL containing
`:tid` captures the tenant substitution of `GetDeployments`; a base URL
containing `:id` captures the device substitution. -/
theorem C6_counterexample :
    latestDeploymentURL "http://h" ":id" "dev1"
      ≠ JoinURL "http://h" (pathTenants ++ ":id" ++ pathDevicesSlash
          ++ "dev1") ∧
    deploymentsURL "http://h/:tid" "t1"
      ≠ JoinURL "http://h/:tid" (pathTenants ++ "t1" ++ pathDevices) ∧
    latestDeploymentURL "http://h/:idx" "t1" "d1"
      ≠ JoinURL "http://h/:idx" (pathTenants ++ "t1" ++ pathDevicesSlash
          ++ "d1") := by decide

theorem C6_witness :
    (¬ (":tid".data <:+: "http://mender-deployments:8080".data)) ∧
    (¬ (":id".data <:+: "http://mender-deployments:8080".data)) ∧
    (¬ (":id".data <:+: "t1".data)) ∧
    (deploymentsURL "http://mender-deployments:8080" "t1"
      = JoinURL "http://mender-deployments:8080"
          (pathTenants ++ "t1" ++ pathDevices) ∧
     latestDeploymentURL "http://mender-deployments:8080" "t1" "d1"
      = JoinURL "http://mender-deployments:8080"
          (pathTenants ++ "t1" ++ pathDevicesSlash ++ "d1")) :=
  ⟨by decide, by decide, by decide,
   C6_url_template "http://mender-deployments:8080" "t1" "d1"
    (by decide) (by decide) (by decide)⟩

/-- C7: every request handed to the transport by either operation carries
the deadline `min(caller deadline, now + 10s)`: a sooner caller deadline is
never extended, and with no caller deadline the call is capped at 10
seconds. -/
theorem C7_deadline_earliest_wins (c : Client) (env : Env)
    (ctxDeadline : Option Nat) (now : Nat) (tenantID deviceID : String)
    (IDs : List String) :
    (∀ req, Event.sent req
        ∈ (GetDeployments c env ctxDeadline now tenantID IDs).events →
      req.deadline
        = min (ctxDeadline.getD (now + defaultTimeout))
            (now + defaultTimeout)) ∧
    (∀ req, Event.sent req
        ∈ (GetLatestFinishedDeployment c env ctxDeadline now
            tenantID deviceID).events →
      req.deadline
        = min (ctxDeadline.getD (now + defaultTimeout))
            (now + defaultTimeout)) ∧
    defaultTimeout = 10 := by
  have hmin : withTimeout ctxDeadline now defaultTimeout
      = min (ctxDeadline.getD (now + defaultTimeout))
          (now + defaultTimeout) := by
    cases ctxDeadline <;> simp [withTimeout]
  refine ⟨?_, ?_, rfl⟩
  · intro req h
    rw [getDeployments_sent_eq h]
    simp [deploymentsReq, newRequest, hmin]
  · intro req h
    rw [getLatest_sent_eq h]
    simp [latestReq, newRequest, hmin]

theorem C7_witness :
    (deploymentsReq sampleClient.urlBase "t1" ["a"]
        (withTimeout (some 3) 0 defaultTimeout)).deadline
      = min ((some 3 : Option Nat).getD (0 + defaultTimeout))
          (0 + defaultTimeout) :=
  (C7_deadline_earliest_wins sampleClient (envOf rsp404) (some 3) 0
    "t1" "d1" ["a"]).1
    (deploymentsReq sampleClient.urlBase "t1" ["a"]
      (withTimeout (some 3) 0 defaultTimeout)) (by decide)

/-- C8: in every execution of either operation in which a request was
handed to the transport and a response was obtained, the response body is
closed before the operation returns, on every exit path. -/
theorem C8_body_closed (c : Client) (env : Env) (ctxDeadline : Option Nat)
    (now : Nat) (tenantID deviceID : String) (IDs : List String) :
    (∀ req rsp, Event.sent req
        ∈ (GetDeployments c env ctxDeadline now tenantID IDs).events →
      env.doReq req = .ok rsp →
      Event.closedBody
        ∈ (GetDeployments c env ctxDeadline now tenantID IDs).events) ∧
    (∀ req rsp, Event.sent req
        ∈ (GetLatestFinishedDeployment c env ctxDeadline now
            tenantID deviceID).events →
      env.doReq req = .ok rsp →
      Event.closedBody
        ∈ (GetLatestFinishedDeployment c env ctxDeadline now
            tenantID deviceID).events) := by
  constructor
  · intro req rsp hmem hok
    have hr := getDeployments_sent_eq hmem
    subst hr
    simp only [GetDeployments] at hmem ⊢
    repeat' split
    all_goals simp_all
  · intro req rsp hmem hok
    have hr := getLatest_sent_eq hmem
    subst hr
    simp only [GetLatestFinishedDeployment] at hmem ⊢
    repeat' split
    all_goals simp_all

theorem C8_witness :
    Event.closedBody
      ∈ (GetDeployments sampleClient (envOf rsp404) none 0 "t1"
          ["a"]).events :=
  (C8_body_closed sampleClient (envOf rsp404) none 0 "t1" "d1" ["a"]).1
    (deploymentsReq sampleClient.urlBase "t1" ["a"]
      (withTimeout none 0 defaultTimeout)) rsp404 (by decide) rfl

/-- C9: whenever either operation returns a non-nil error its result is
nil, and a nil-error `GetDeployments` result is either the nil slice or
non-empty — never a non-nil empty slice.  (Stated equivalently without
implications: the result is nil, or the error is nil and the result is not
the empty slice.) -/
theorem C9_error_nil_result (c : Client) (env : Env)
    (ctxDeadline : Option Nat) (now : Nat) (tenantID deviceID : String)
    (IDs : List String) :
    ((GetDeployments c env ctxDeadline now tenantID IDs).value = none ∨
      ((GetDeployments c env ctxDeadline now tenantID IDs).error = none ∧
       (GetDeployments c env ctxDeadline now tenantID IDs).value
         ≠ some [])) ∧
    ((GetLatestFinishedDeployment c env ctxDeadline now
        tenantID deviceID).value = none ∨
     (GetLatestFinishedDeployment c env ctxDeadline now
        tenantID deviceID).error = none) := by
  constructor
  · simp only [GetDeployments]
    repeat' split
    all_goals simp_all
  · simp only [GetLatestFinishedDeployment]
    repeat' split
    all_goals simp_all

/-- C10: the HTTP request is constructed before the ID-count ceiling is
checked: with more than 100 IDs, a failing request construction yields the
request-build error (not the validation error), and a succeeding one yields
the validation error; in both cases nothing is sent. -/
theorem C10_build_before_validation (c : Client) (env : Env)
    (ctxDeadline : Option Nat) (now : Nat) (tenantID : String)
    (IDs : List String) (m : String)
    (hlen : IDs.length > maxPerPage) :
    (env.newRequestErr (deploymentsURL c.urlBase tenantID) = some m →
      (GetDeployments c env ctxDeadline now tenantID IDs).error
          = some (Err.requestBuild ("failed to create request: " ++ m)) ∧
      (GetDeployments c env ctxDeadline now tenantID IDs).events = []) ∧
    (env.newRequestErr (deploymentsURL c.urlBase tenantID) = none →
      (GetDeployments c env ctxDeadline now tenantID IDs).error
          = some (Err.validation "too many IDs") ∧
      (GetDeployments c env ctxDeadline now tenantID IDs).events = []) := by
  constructor <;> intro hb <;> simp [GetDeployments, hb, hlen]

theorem C10_witness :
    (GetDeployments ⟨"://bad"⟩ envBadURL none 0 "t1"
        (List.replicate 101 "a")).error
      = some (Err.requestBuild
          ("failed to create request: " ++ "missing protocol scheme")) ∧
    (GetDeployments ⟨"://bad"⟩ envBadURL none 0 "t1"
        (List.replicate 101 "a")).events = [] :=
  (C10_build_before_validation ⟨"://bad"⟩ envBadURL none 0 "t1"
    (List.replicate 101 "a") "missing protocol scheme" (by decide)).1 rfl

end Deployments
